import Mathlib

/-!
Shallow embedding of `src/LinoSPAD2/functions/cross_talk.py`
(`collect_cross_talk` and `calculate_dark_count_rate`) together with the
difference-engine contract used by `collect_cross_talk`.

Records produced by the binary unpacker are pairs of an intra-channel
pixel-index field and a (calibrated) timestamp; the sentinel pixel value
`-2` marks the end of an acquisition cycle.  Unpacking itself
(`LinoSPAD2.functions.unpack`) is not part of the sources; the unpacked
per-channel record arrays are inputs of the model, keyed by file name.
-/

/-- One row of an unpacked per-channel record array:
`pix` is the intra-channel pixel-index field (`data_all[tdc].T[0]`),
`ts` the timestamp field (`data_all[tdc].T[1]`). -/
structure Rec' where
  pix : Int
  ts : Int
deriving DecidableEq, Repr

/-- `data_all`: channel (TDC) index to its record rows. -/
def ChannelData : Type := Nat → List Rec'

/-- Python values for the `isinstance(x, str)` parameter checks:
either a string or some non-string value. -/
inductive PyVal where
  | pstr (s : String)
  | pother
deriving DecidableEq, Repr

/-- `isinstance(v, str)`. -/
def PyVal.isStr : PyVal → Bool
  | .pstr _ => true
  | .pother => false

/-- Firmware `"2212s"`: `np.arange(256).reshape(4, 64).T`, so entry at
row `r`, column `c` is `64 * c + r`. -/
def pixCoor2212s (r c : Nat) : Nat := 64 * c + r

/-- Firmware `"2212b"`: `np.arange(256).reshape(64, 4)`, so entry at
row `r`, column `c` is `4 * r + c`. -/
def pixCoor2212b (r c : Nat) : Nat := 4 * r + c

/-- The firmware dispatch of the per-file loop: the pixel-coordinate
array for the two recognized tags, `none` otherwise (the code prints a
message and calls `sys.exit()`). -/
def pixCoorOf (fw : PyVal) : Option (Nat → Nat → Nat) :=
  if fw = .pstr "2212s" then some pixCoor2212s
  else if fw = .pstr "2212b" then some pixCoor2212b
  else none

/-- The cells of the 64-row, 4-column coordinate array in row-major
order, the order in which `np.argwhere` scans them. -/
def coorCells : List (Nat × Nat) :=
  (List.range 64).flatMap (fun r => (List.range 4).map (fun c => (r, c)))

/-- `np.argwhere(pix_coor == pixel)[0]`: the first cell (row-major)
whose entry equals `pixel`; `none` models the `IndexError` raised by
`[0]` on an empty `argwhere` result. -/
def np_argwhere (coor : Nat → Nat → Nat) (pixel : Nat) : Option (Nat × Nat) :=
  coorCells.find? (fun rc => coor rc.1 rc.2 == pixel)

/-- Slice `xs[lo:hi]` by position, as numpy slicing of a series by a
pair of consecutive cycle boundaries. -/
def sliceIdx (xs : List Int) (lo hi : Nat) : List Int :=
  (xs.drop lo).take (hi - lo)

/-- Modelled from the spec: `LinoSPAD2.functions.calc_diff.
calculate_differences_2212` is imported by `cross_talk.py` but its
module is not among the sources.  Per the DifferenceEngine contract:
for each cycle (each pair of consecutive boundary offsets), restrict
both series to that cycle's index range and emit every difference
`b - a` whose absolute value is at most `delta_window` (inclusive). -/
def calculate_differences_2212 (data1 data2 : List Int)
    (cycle_ends : List Nat) (delta_window : Nat) : List Int :=
  (cycle_ends.zip cycle_ends.tail).flatMap fun lh =>
    (sliceIdx data1 lh.1 lh.2).flatMap fun a =>
      (sliceIdx data2 lh.1 lh.2).filterMap fun b =>
        if (b - a).natAbs ≤ delta_window then some (b - a) else none

/-- `np.argwhere(data_all[0].T[0] == -2)`: the row indices of a record
array whose pixel-index field is the cycle-end sentinel `-2`, in
increasing order. -/
def sentinelRows (rows : List Rec') : List Nat :=
  (List.range rows.length).filter fun i =>
    (rows[i]?).any fun r => r.pix == (-2 : Int)

/-- `cycle_ends = np.insert(np.argwhere(data_all[0].T[0] == -2), 0, 0)`:
the sentinel row indices of channel 0 with offset `0` prepended. -/
def cycleEnds (rows : List Rec') : List Nat :=
  0 :: sentinelRows rows

/-- `data_all[tdc].T[1][np.where(data_all[tdc].T[0] == pc)[0]]`: the
timestamps of the rows of channel `tdc` whose pixel-index field equals
`pc`, in row order. -/
def extractPix (data : ChannelData) (tdc pc : Nat) : List Int :=
  ((data tdc).filter (fun r => r.pix == (pc : Int))).map Rec'.ts

/-- `len(np.where(d > 0)[0])`: the number of strictly positive
(valid) timestamps of a series. -/
def countPositive (xs : List Int) : Nat :=
  (xs.filter (fun t => (0 : Int) < t)).length

/-- One appended output row of `collect_cross_talk`
(`file_name_list`, `pix1_list`, ..., `ct_list`). -/
structure Row where
  file : String
  pix1 : Nat
  pix2 : Nat
  ts1 : Nat
  ts2 : Nat
  deltasLen : Nat
  ct : ℚ
deriving DecidableEq, Repr

deriving instance DecidableEq for Except

/-- The body of the inner pair loop for one `j` (lines 128-166):
`.ok none` models `continue` (pair skipped), `.error ()` models the
`IndexError` of `np.argwhere(...)[0]` on a pixel absent from
`pix_coor`, and `.ok (some row)` the appended output row. -/
def processPair (file : String) (coor : Nat → Nat → Nat)
    (data : ChannelData) (data1 : List Int) (cycle_ends : List Nat)
    (delta_window : Nat) (p0 pj : Nat) : Except Unit (Option Row) :=
  if pj ≤ p0 then .ok none
  else
    match np_argwhere coor pj with
    | none => .error ()
    | some (tdc2, pc2) =>
      let data2 := extractPix data tdc2 pc2
      let deltas := calculate_differences_2212 data1 data2 cycle_ends delta_window
      let ts1 := countPositive data1
      if ts1 = 0 then .ok none
      else
        let ts2 := countPositive data2
        .ok (some ⟨file, p0, pj, ts1, ts2, deltas.length,
          ((deltas.length : ℚ) * 100) / ((ts1 : ℚ) + (ts2 : ℚ))⟩)

/-- The inner pair loop `for j in range(1, len(pixels))`, accumulating
output rows in order. -/
def pairLoop (file : String) (coor : Nat → Nat → Nat)
    (data : ChannelData) (data1 : List Int) (cycle_ends : List Nat)
    (delta_window : Nat) (p0 : Nat) :
    List Row → List Nat → Except Unit (List Row)
  | acc, [] => .ok acc
  | acc, pj :: rest =>
    match processPair file coor data data1 cycle_ends delta_window p0 pj with
    | .error e => .error e
    | .ok none => pairLoop file coor data data1 cycle_ends delta_window p0 acc rest
    | .ok (some r) =>
      pairLoop file coor data data1 cycle_ends delta_window p0 (acc ++ [r]) rest

/-- The per-file body after unpacking (lines 121-166): extract the
reference pixel's series, compute the cycle boundaries from channel 0,
and run the pair loop.  `.error ()` models the `IndexError` on
`pixels[0]` for an empty pixel list or on an out-of-range pixel. -/
def processFile (coor : Nat → Nat → Nat) (file : String)
    (data : ChannelData) (pixels : List Nat) (delta_window : Nat) :
    Except Unit (List Row) :=
  match pixels with
  | [] => .error ()
  | p0 :: rest =>
    match np_argwhere coor p0 with
    | none => .error ()
    | some (tdc1, pc1) =>
      pairLoop file coor data (extractPix data tdc1 pc1)
        (cycleEnds (data 0)) delta_window p0 [] rest

/-- Observable side effects of a run: entering the data directory
(`os.chdir(path)`), listing it (`glob.glob`), invoking the unpack step
on one file (`f_up.unpack_binary_data`), and writing the output
artifact (`cross_talk_data.to_csv`). -/
inductive Ev where
  | evChdir
  | evGlob
  | evUnpack (file : String)
  | evWriteCsv
deriving DecidableEq, Repr

/-- How a run of `collect_cross_talk` ends. -/
inductive CtOutcome where
  | typeErrorDb
  | typeErrorMb
  | firmwareExit
  | indexError
  | done (rows : List Row)
deriving DecidableEq, Repr

/-- The outcome was a raised `TypeError`. -/
def CtOutcome.isTypeError : CtOutcome → Bool
  | .typeErrorDb => true
  | .typeErrorMb => true
  | _ => false

/-- The file loop of `collect_cross_talk` (lines 103-166): per file,
the firmware dispatch (exiting on an unrecognized tag), the unpack
step, then the per-file pair processing; an `IndexError` escaping the
body aborts the loop.  Returns the emitted events and either the
aborting outcome or the accumulated rows. -/
def loopFiles (fw : PyVal) (files : List String)
    (unpacked : String → ChannelData) (pixels : List Nat)
    (delta_window : Nat) : List Ev × Except CtOutcome (List Row) :=
  match files with
  | [] => ([], .ok [])
  | f :: rest =>
    match pixCoorOf fw with
    | none => ([], .error .firmwareExit)
    | some coor =>
      match processFile coor f (unpacked f) pixels delta_window with
      | .error _ => ([.evUnpack f], .error .indexError)
      | .ok rows =>
        let r := loopFiles fw rest unpacked pixels delta_window
        (.evUnpack f :: r.1, r.2.map (rows ++ ·))

/-- `collect_cross_talk` as a trace function: the parameter type
checks, then `os.chdir(path)` and `glob.glob("*.dat*")`, the file
loop, the save message (`files[0]` raises `IndexError` on an empty
file list), and the artifact write — whose existence check
(`glob.glob("*CT_data_...csv*") == []`) has two identical branches,
so the artifact is written either way.  `artifactExists` is whether a
cached output artifact for this file set is present. -/
def collect_cross_talk (db mb fw : PyVal) (files : List String)
    (unpacked : String → ChannelData) (pixels : List Nat)
    (delta_window : Nat) (artifactExists : Bool) : List Ev × CtOutcome :=
  if ¬ db.isStr then ([], .typeErrorDb)
  else if ¬ mb.isStr then ([], .typeErrorMb)
  else
    let ev0 : List Ev := [.evChdir, .evGlob]
    match loopFiles fw files unpacked pixels delta_window with
    | (evs, .error out) => (ev0 ++ evs, out)
    | (evs, .ok rows) =>
      match files with
      | [] => (ev0 ++ evs, .indexError)
      | _ :: _ =>
        if artifactExists = false then
          (ev0 ++ evs ++ [.evWriteCsv], .done rows)
        else
          (ev0 ++ evs ++ [.evWriteCsv], .done rows)

/-- How a run of `calculate_dark_count_rate` ends. -/
inductive DcrOutcome where
  | typeErrorFw
  | typeErrorDb
  | typeErrorMb
  | firmwareExit
  | done (dcr : ℚ)
deriving DecidableEq, Repr

/-- The outcome was a raised `TypeError`. -/
def DcrOutcome.isTypeError : DcrOutcome → Bool
  | .typeErrorFw => true
  | .typeErrorDb => true
  | .typeErrorMb => true
  | _ => false

/-- The per-file, per-pixel accumulation of
`calculate_dark_count_rate` (lines 445-449): the number of rows of the
pixel's channel whose pixel-index field matches and whose timestamp is
strictly positive.  For `p < 256` the `np.argwhere` lookup always
succeeds; the `none` branch is never reached in the loop
`for i in range(256)`. -/
def validPerPixelFile (coor : Nat → Nat → Nat) (data : ChannelData)
    (p : Nat) : Nat :=
  match np_argwhere coor p with
  | none => 0
  | some (tdc, pc) =>
    ((data tdc).filter (fun r => r.pix == (pc : Int) ∧ (0 : Int) < r.ts)).length

/-- The file loop of `calculate_dark_count_rate` (lines 428-449):
firmware dispatch, unpack, then accumulation into `valid_per_pixel`. -/
def dcrLoop (fw : PyVal) (files : List String)
    (unpacked : String → ChannelData) (valid : Nat → Nat) :
    List Ev × Except DcrOutcome (Nat → Nat) :=
  match files with
  | [] => ([], .ok valid)
  | f :: rest =>
    match pixCoorOf fw with
    | none => ([], .error .firmwareExit)
    | some coor =>
      dcrLoop fw rest unpacked
        (fun p => valid p + validPerPixelFile coor (unpacked f) p)
      |>.map (.evUnpack f :: ·) id

/-- `calculate_dark_count_rate` as a trace function: the three
parameter type checks, `os.chdir(path)` and `glob.glob("*.dat*")`, the
file loop, the mask (`valid_per_pixel[mask] = 0`), and the average
over the 256 pixels divided by the number of files (on an empty file
set numpy yields `nan` without raising; rational division by zero
models this as the junk value `0`). -/
def calculate_dark_count_rate (db mb fw : PyVal) (files : List String)
    (unpacked : String → ChannelData) (mask : List Nat) :
    List Ev × DcrOutcome :=
  if ¬ fw.isStr then ([], .typeErrorFw)
  else if ¬ db.isStr then ([], .typeErrorDb)
  else if ¬ mb.isStr then ([], .typeErrorMb)
  else
    let ev0 : List Ev := [.evChdir, .evGlob]
    match dcrLoop fw files unpacked (fun _ => 0) with
    | (evs, .error out) => (ev0 ++ evs, out)
    | (evs, .ok valid) =>
      let masked : Nat → Nat := fun p => if p ∈ mask then 0 else valid p
      let avg : ℚ := (((List.range 256).map masked).sum : ℚ) / 256
      (ev0 ++ evs, .done (avg / (files.length : ℚ)))

set_option maxRecDepth 10000 in
/-- Closed form of the argwhere lookup for firmware `"2212b"`. -/
lemma argwhere_2212b_closed :
    ∀ p < 256, np_argwhere pixCoor2212b p = some (p / 4, p % 4) := by
  decide

set_option maxRecDepth 10000 in
/-- Closed form of the argwhere lookup for firmware `"2212s"`. -/
lemma argwhere_2212s_closed :
    ∀ p < 256, np_argwhere pixCoor2212s p = some (p % 64, p / 64) := by
  decide

/-- Every cell of the coordinate array lies in the 64-row, 4-column
grid. -/
lemma mem_coorCells {rc : Nat × Nat} (h : rc ∈ coorCells) :
    rc.1 < 64 ∧ rc.2 < 4 := by
  simp only [coorCells, List.mem_flatMap, List.mem_map, List.mem_range] at h
  obtain ⟨r, hr, c, hc, rfl⟩ := h
  exact ⟨hr, hc⟩

/-- Pixels at or above 256 are absent from both coordinate arrays. -/
lemma argwhere_none_of_ge {p : Nat} (hp : 256 ≤ p) :
    np_argwhere pixCoor2212s p = none ∧ np_argwhere pixCoor2212b p = none := by
  constructor <;>
  · rw [np_argwhere, List.find?_eq_none]
    intro rc hrc
    have h := mem_coorCells hrc
    simp only [beq_iff_eq, pixCoor2212s, pixCoor2212b]
    omega

/-- C6: for each recognized firmware tag the pixel-coordinate lookup
`np.argwhere(pix_coor == pixel)[0]` realizes a bijection between the
256 logical pixels and the 64-channel-by-4-intra-index grid (the 4×64
grid of channel / intra-channel-index cells): it is total on pixels
0..255 with values inside the grid, injective, surjective onto the
grid, defined for no pixel beyond 255, and the two tags induce
different mappings. -/
theorem C6_pixel_map_bijection :
    (∀ p, p < 256 → ∃ r c, np_argwhere pixCoor2212s p = some (r, c) ∧
        r < 64 ∧ c < 4) ∧
    (∀ p, p < 256 → ∃ r c, np_argwhere pixCoor2212b p = some (r, c) ∧
        r < 64 ∧ c < 4) ∧
    (∀ p q, p < 256 → q < 256 →
        np_argwhere pixCoor2212s p = np_argwhere pixCoor2212s q → p = q) ∧
    (∀ p q, p < 256 → q < 256 →
        np_argwhere pixCoor2212b p = np_argwhere pixCoor2212b q → p = q) ∧
    (∀ r c, r < 64 → c < 4 →
        ∃ p, p < 256 ∧ np_argwhere pixCoor2212s p = some (r, c)) ∧
    (∀ r c, r < 64 → c < 4 →
        ∃ p, p < 256 ∧ np_argwhere pixCoor2212b p = some (r, c)) ∧
    (∀ p, 256 ≤ p →
        np_argwhere pixCoor2212s p = none ∧ np_argwhere pixCoor2212b p = none) ∧
    np_argwhere pixCoor2212s 1 ≠ np_argwhere pixCoor2212b 1 := by
  refine ⟨?_, ?_, ?_, ?_, ?_, ?_, ?_, ?_⟩
  · intro p hp
    refine ⟨p % 64, p / 64, argwhere_2212s_closed p hp, ?_, ?_⟩ <;> omega
  · intro p hp
    refine ⟨p / 4, p % 4, argwhere_2212b_closed p hp, ?_, ?_⟩ <;> omega
  · intro p q hp hq h
    rw [argwhere_2212s_closed p hp, argwhere_2212s_closed q hq] at h
    simp only [Option.some.injEq, Prod.mk.injEq] at h
    omega
  · intro p q hp hq h
    rw [argwhere_2212b_closed p hp, argwhere_2212b_closed q hq] at h
    simp only [Option.some.injEq, Prod.mk.injEq] at h
    omega
  · intro r c hr hc
    refine ⟨64 * c + r, by omega, ?_⟩
    rw [argwhere_2212s_closed (64 * c + r) (by omega)]
    congr 1
    rw [Prod.mk.injEq]
    omega
  · intro r c hr hc
    refine ⟨4 * r + c, by omega, ?_⟩
    rw [argwhere_2212b_closed (4 * r + c) (by omega)]
    congr 1
    rw [Prod.mk.injEq]
    omega
  · intro p hp
    exact argwhere_none_of_ge hp
  · decide

/-- C6 witness: the bijection evaluated at concrete inputs — pixel 7
under `"2212b"`, and the grid cell (row 5, column 2) hit from a
concrete pixel under `"2212s"`. -/
theorem C6_pixel_map_bijection_witness :
    (∃ r c, np_argwhere pixCoor2212b 7 = some (r, c) ∧ r < 64 ∧ c < 4) ∧
    (∃ p, p < 256 ∧ np_argwhere pixCoor2212s p = some (5, 2)) :=
  ⟨C6_pixel_map_bijection.2.1 7 (by decide),
   C6_pixel_map_bijection.2.2.2.2.1 5 2 (by decide) (by decide)⟩

/-- C4: a pair whose second pixel does not exceed the reference pixel
is skipped by the `continue` at the top of the pair loop: the pair
body yields no row and no error, and the loop proceeds with the
remaining pairs, its accumulated rows unchanged. -/
theorem C4_nonincreasing_pair_skipped (file : String)
    (coor : Nat → Nat → Nat) (data : ChannelData) (data1 : List Int)
    (cycle_ends : List Nat) (delta_window : Nat) (p0 pj : Nat)
    (acc : List Row) (rest : List Nat) (h : pj ≤ p0) :
    processPair file coor data data1 cycle_ends delta_window p0 pj =
      .ok none ∧
    pairLoop file coor data data1 cycle_ends delta_window p0 acc
        (pj :: rest) =
      pairLoop file coor data data1 cycle_ends delta_window p0 acc rest := by
  have h1 : processPair file coor data data1 cycle_ends delta_window p0 pj =
      .ok none := by
    rw [processPair, if_pos h]
  exact ⟨h1, by rw [pairLoop, h1]⟩

/-- C4 witness: pixel pair (5, 3) at concrete data is skipped and the
loop continues with pair (5, 7). -/
theorem C4_nonincreasing_pair_skipped_witness :
    processPair "a.dat" pixCoor2212b (fun _ => ([] : List Rec')) []
        [0] 10000 5 3 = .ok none ∧
    pairLoop "a.dat" pixCoor2212b (fun _ => ([] : List Rec')) []
        [0] 10000 5 [] (3 :: [7]) =
      pairLoop "a.dat" pixCoor2212b (fun _ => ([] : List Rec')) []
        [0] 10000 5 [] [7] :=
  C4_nonincreasing_pair_skipped "a.dat" pixCoor2212b
    (fun _ => ([] : List Rec')) [] [0] 10000 5 3 [] [7] (by decide)

/-- Membership in the sentinel-row index list: exactly the indices
whose record has pixel-index field `-2`. -/
lemma mem_sentinelRows (rows : List Rec') (i : Nat) :
    i ∈ sentinelRows rows ↔ ∃ r, rows[i]? = some r ∧ r.pix = -2 := by
  rw [sentinelRows, List.mem_filter, List.mem_range]
  constructor
  · rintro ⟨hi, hp⟩
    match h : rows[i]? with
    | none => rw [h] at hp; simp [Option.any] at hp
    | some r =>
      rw [h] at hp
      simp only [Option.any, beq_iff_eq] at hp
      exact ⟨r, rfl, hp⟩
  · rintro ⟨r, hr, hpix⟩
    have hi : i < rows.length := by
      by_contra hge
      rw [List.getElem?_eq_none (by omega)] at hr
      exact Option.noConfusion hr
    refine ⟨hi, ?_⟩
    rw [hr]
    simp only [Option.any, beq_iff_eq]
    exact hpix

/-- The sentinel-row indices are pairwise strictly increasing. -/
lemma sentinelRows_pairwise (rows : List Rec') :
    (sentinelRows rows).Pairwise (· < ·) :=
  (List.pairwise_lt_range rows.length).filter _

/-- C7: the cycle-boundary sequence built in `collect_cross_talk`
(`np.insert(np.argwhere(...), 0, 0)`) starts with the implicitly
prepended offset 0, its remainder is exactly the increasing list of
row indices carrying the cycle-end sentinel, and the whole sequence is
monotonically (weakly) increasing. -/
theorem C7_cycle_boundaries (rows : List Rec') :
    (cycleEnds rows).head? = some 0 ∧
    (cycleEnds rows).tail = sentinelRows rows ∧
    List.Sorted (· ≤ ·) (cycleEnds rows) ∧
    (∀ i, i ∈ sentinelRows rows ↔ ∃ r, rows[i]? = some r ∧ r.pix = -2) := by
  refine ⟨rfl, rfl, ?_, fun i => mem_sentinelRows rows i⟩
  rw [cycleEnds, List.sorted_cons]
  exact ⟨fun b _ => Nat.zero_le b,
    (sentinelRows_pairwise rows).imp Nat.le_of_lt⟩

/-- C7 witness: the boundary sequence of a concrete channel with a
sentinel at rows 2 and 4 starts with 0 and lists exactly those rows. -/
theorem C7_cycle_boundaries_witness :
    (cycleEnds [⟨3, 7⟩, ⟨3, 9⟩, ⟨-2, 0⟩, ⟨1, 4⟩, ⟨-2, 0⟩]).head? = some 0 ∧
    (cycleEnds [⟨3, 7⟩, ⟨3, 9⟩, ⟨-2, 0⟩, ⟨1, 4⟩, ⟨-2, 0⟩]).tail =
      sentinelRows [⟨3, 7⟩, ⟨3, 9⟩, ⟨-2, 0⟩, ⟨1, 4⟩, ⟨-2, 0⟩] :=
  ⟨(C7_cycle_boundaries [⟨3, 7⟩, ⟨3, 9⟩, ⟨-2, 0⟩, ⟨1, 4⟩, ⟨-2, 0⟩]).1,
   (C7_cycle_boundaries [⟨3, 7⟩, ⟨3, 9⟩, ⟨-2, 0⟩, ⟨1, 4⟩, ⟨-2, 0⟩]).2.1⟩

/-- An element of a boundary slice `xs[lo:hi]` sits at a source offset
in `[lo, hi)`. -/
lemma mem_sliceIdx {xs : List Int} {lo hi : Nat} {x : Int}
    (h : x ∈ sliceIdx xs lo hi) :
    ∃ i, lo ≤ i ∧ i < hi ∧ xs[i]? = some x := by
  rw [sliceIdx] at h
  obtain ⟨k, hk⟩ := List.mem_iff_getElem?.mp h
  have htake := List.getElem?_take (l := xs.drop lo) (n := hi - lo) (m := k)
  rw [hk] at htake
  by_cases hlt : k < hi - lo
  · rw [if_pos hlt] at htake
    rw [List.getElem?_drop] at htake
    exact ⟨lo + k, Nat.le_add_right lo k, by omega, htake.symm⟩
  · rw [if_neg hlt] at htake
    exact Option.noConfusion htake

/-- C3: every difference returned by the difference computation, as
invoked from `collect_cross_talk`, is formed from two records whose
source offsets lie inside the same cycle-boundary range: no returned
difference pairs series A in one cycle with series B in another. -/
theorem C3_no_cross_cycle_pairing (data1 data2 : List Int)
    (cycle_ends : List Nat) (delta_window : Nat) (d : Int)
    (hd : d ∈ calculate_differences_2212 data1 data2 cycle_ends delta_window) :
    ∃ lo hi, (lo, hi) ∈ cycle_ends.zip cycle_ends.tail ∧
      ∃ i j a b, lo ≤ i ∧ i < hi ∧ lo ≤ j ∧ j < hi ∧
        data1[i]? = some a ∧ data2[j]? = some b ∧
        d = b - a ∧ d.natAbs ≤ delta_window := by
  rw [calculate_differences_2212, List.mem_flatMap] at hd
  obtain ⟨lh, hlh, hd⟩ := hd
  rw [List.mem_flatMap] at hd
  obtain ⟨a, ha, hd⟩ := hd
  rw [List.mem_filterMap] at hd
  obtain ⟨b, hb, hfb⟩ := hd
  by_cases hw : (b - a).natAbs ≤ delta_window
  · rw [if_pos hw] at hfb
    obtain ⟨i, hi1, hi2, hia⟩ := mem_sliceIdx ha
    obtain ⟨j, hj1, hj2, hjb⟩ := mem_sliceIdx hb
    obtain rfl : b - a = d := Option.some.inj hfb
    exact ⟨lh.1, lh.2, hlh, i, j, a, b, hi1, hi2, hj1, hj2, hia, hjb,
      rfl, hw⟩
  · rw [if_neg hw] at hfb
    exact Option.noConfusion hfb

/-- C3 witness: the difference `2 = 12 - 10` returned for concrete
series and one cycle is placed inside a single boundary range. -/
theorem C3_no_cross_cycle_pairing_witness :
    (2 : Int) ∈ calculate_differences_2212 [10] [12] [0, 1] 5 ∧
    ∃ lo hi, (lo, hi) ∈ ([0, 1] : List Nat).zip ([0, 1] : List Nat).tail ∧
      ∃ i j a b, lo ≤ i ∧ i < hi ∧ lo ≤ j ∧ j < hi ∧
        ([10] : List Int)[i]? = some a ∧ ([12] : List Int)[j]? = some b ∧
        (2 : Int) = b - a ∧ (2 : Int).natAbs ≤ 5 :=
  ⟨by decide, C3_no_cross_cycle_pairing [10] [12] [0, 1] 5 2 (by decide)⟩

/-- Inversion of the pair-loop body: an appended row records the pair
(`pixels[0]`, `pixels[j]`) with `pixels[0] < pixels[j]`, the valid
counts of both series (the first nonzero), the number of windowed
differences, and their ratio as the cross-talk percentage. -/
lemma processPair_ok_some {file : String} {coor : Nat → Nat → Nat}
    {data : ChannelData} {data1 : List Int} {cycle_ends : List Nat}
    {w p0 pj : Nat} {r : Row}
    (h : processPair file coor data data1 cycle_ends w p0 pj = .ok (some r)) :
    p0 < pj ∧ countPositive data1 ≠ 0 ∧
    ∃ tdc2 pc2, np_argwhere coor pj = some (tdc2, pc2) ∧
      r = ⟨file, p0, pj, countPositive data1,
        countPositive (extractPix data tdc2 pc2),
        (calculate_differences_2212 data1 (extractPix data tdc2 pc2)
          cycle_ends w).length,
        (((calculate_differences_2212 data1 (extractPix data tdc2 pc2)
          cycle_ends w).length : ℚ) * 100) /
          ((countPositive data1 : ℚ) +
            (countPositive (extractPix data tdc2 pc2) : ℚ))⟩ := by
  rw [processPair] at h
  split at h
  · simp at h
  · rename_i hnle
    split at h
    · simp at h
    · rename_i tdc2 pc2 hn
      simp only [] at h
      split at h
      · simp at h
      · rename_i hz
        simp only [Except.ok.injEq, Option.some.injEq] at h
        exact ⟨by omega, hz, tdc2, pc2, hn, h.symm⟩

/-- Where the rows of the pair loop come from: the prior accumulator
or a successful pair-body run for one of the remaining pixels. -/
lemma pairLoop_mem_ok {file : String} {coor : Nat → Nat → Nat}
    {data : ChannelData} {data1 : List Int} {cycle_ends : List Nat}
    {w p0 : Nat} :
    ∀ pjs acc rows,
      pairLoop file coor data data1 cycle_ends w p0 acc pjs = .ok rows →
      ∀ r ∈ rows, r ∈ acc ∨ ∃ pj ∈ pjs,
        processPair file coor data data1 cycle_ends w p0 pj =
          .ok (some r) := by
  intro pjs
  induction pjs with
  | nil =>
    intro acc rows h r hr
    simp only [pairLoop] at h
    obtain rfl := Except.ok.inj h
    exact Or.inl hr
  | cons pj rest ih =>
    intro acc rows h r hr
    simp only [pairLoop] at h
    split at h
    · exact absurd h (by simp)
    · rename_i heq
      rcases ih acc rows h r hr with hacc | ⟨pj2, hpj2, hps⟩
      · exact Or.inl hacc
      · exact Or.inr ⟨pj2, List.mem_cons_of_mem _ hpj2, hps⟩
    · rename_i r2 heq
      rcases ih (acc ++ [r2]) rows h r hr with hacc | ⟨pj2, hpj2, hps⟩
      · rcases List.mem_append.mp hacc with h1 | h2
        · exact Or.inl h1
        · obtain rfl := List.mem_singleton.mp h2
          exact Or.inr ⟨pj, List.mem_cons_self pj rest, heq⟩
      · exact Or.inr ⟨pj2, List.mem_cons_of_mem _ hpj2, hps⟩

/-- Inversion of the per-file body: its rows all come from successful
pair-body runs against the reference pixel's series and the channel-0
cycle boundaries. -/
lemma processFile_ok_mem {coor : Nat → Nat → Nat} {file : String}
    {data : ChannelData} {pixels : List Nat} {w : Nat} {rows : List Row}
    (h : processFile coor file data pixels w = .ok rows) :
    ∀ r ∈ rows, ∃ p0 rest tdc1 pc1, pixels = p0 :: rest ∧
      np_argwhere coor p0 = some (tdc1, pc1) ∧
      ∃ pj ∈ rest,
        processPair file coor data (extractPix data tdc1 pc1)
          (cycleEnds (data 0)) w p0 pj = .ok (some r) := by
  intro r hr
  rw [processFile.eq_def] at h
  split at h
  · exact absurd h (by simp)
  · rename_i p0 rest
    split at h
    · exact absurd h (by simp)
    · rename_i tdc1 pc1 hn
      rcases pairLoop_mem_ok rest [] rows h r hr with hacc | ⟨pj, hpj, hps⟩
      · exact absurd hacc (List.not_mem_nil r)
      · exact ⟨p0, rest, tdc1, pc1, rfl, hn, pj, hpj, hps⟩

/-- C9: every row appended by `collect_cross_talk` has at least one
valid timestamp for the reference pixel (the preceding skip guarantees
it), hence a strictly positive denominator, and its cross-talk value
is the genuine quotient `len(deltas) * 100 / (ts1 + ts2)`. -/
theorem C9_ct_denominator_positive (coor : Nat → Nat → Nat)
    (file : String) (data : ChannelData) (pixels : List Nat) (w : Nat)
    (rows : List Row)
    (h : processFile coor file data pixels w = .ok rows) :
    ∀ r ∈ rows, 1 ≤ r.ts1 ∧ 0 < r.ts1 + r.ts2 ∧
      r.ct * ((r.ts1 : ℚ) + (r.ts2 : ℚ)) = (r.deltasLen : ℚ) * 100 := by
  intro r hr
  obtain ⟨p0, rest, tdc1, pc1, hpix, hn1, pj, hpj, hps⟩ :=
    processFile_ok_mem h r hr
  obtain ⟨hlt, hz, tdc2, pc2, hn2, rfl⟩ := processPair_ok_some hps
  have h1 := Nat.pos_of_ne_zero hz
  refine ⟨h1, by dsimp only; omega, ?_⟩
  dsimp only
  have hpos : (0 : ℚ) <
      (countPositive (extractPix data tdc1 pc1) : ℚ) +
      (countPositive (extractPix data tdc2 pc2) : ℚ) := by
    exact_mod_cast Nat.add_pos_left h1 _
  exact div_mul_cancel₀ _ (ne_of_gt hpos)

/-- The channel data of a concrete one-file run used below: channel 0
holds a hit of intra-pixel 0, a hit of intra-pixel 1, and the cycle-end
sentinel. -/
def witData : ChannelData :=
  fun tdc => if tdc = 0 then [⟨0, 100⟩, ⟨1, 150⟩, ⟨-2, 0⟩] else []

/-- The single output row that `processFile` produces on `witData` for
pixels 0 and 1 under firmware `"2212b"`. -/
def witRow : Row :=
  ⟨"a.dat", 0, 1, 1, 1, 1,
    (((1 : Nat) : ℚ) * 100) / (((1 : Nat) : ℚ) + ((1 : Nat) : ℚ))⟩

/-- C9 witness: a concrete run producing one row with one valid
timestamp on each pixel. -/
theorem C9_ct_denominator_positive_witness :
    1 ≤ witRow.ts1 ∧ 0 < witRow.ts1 + witRow.ts2 ∧
    witRow.ct * ((witRow.ts1 : ℚ) + (witRow.ts2 : ℚ)) =
      (witRow.deltasLen : ℚ) * 100 :=
  C9_ct_denominator_positive pixCoor2212b "a.dat" witData
    [0, 1] 10000 [witRow] rfl witRow (List.mem_singleton.mpr rfl)

/-- C10: the cycle-boundary sequence entering every difference
computation of a file is the one sequence built from channel 0's
records (offset 0 prepended to the rows of `data_all[0]` whose
pixel-index field is `-2`), for every pair alike, regardless of the
channels `tdc1`, `tdc2` the two pixels map to. -/
theorem C10_boundaries_from_channel_zero (coor : Nat → Nat → Nat)
    (file : String) (data : ChannelData) (pixels : List Nat) (w : Nat)
    (rows : List Row)
    (h : processFile coor file data pixels w = .ok rows) :
    ∀ r ∈ rows, ∃ p0 rest tdc1 pc1 tdc2 pc2, pixels = p0 :: rest ∧
      np_argwhere coor p0 = some (tdc1, pc1) ∧
      np_argwhere coor r.pix2 = some (tdc2, pc2) ∧
      r.deltasLen = (calculate_differences_2212 (extractPix data tdc1 pc1)
        (extractPix data tdc2 pc2) (0 :: sentinelRows (data 0)) w).length := by
  intro r hr
  obtain ⟨p0, rest, tdc1, pc1, hpix, hn1, pj, hpj, hps⟩ :=
    processFile_ok_mem h r hr
  obtain ⟨hlt, hz, tdc2, pc2, hn2, rfl⟩ := processPair_ok_some hps
  exact ⟨p0, rest, tdc1, pc1, tdc2, pc2, hpix, hn1, hn2, rfl⟩

/-- C10 witness: in a concrete run the single row's difference count
is the one computed against channel 0's boundary sequence. -/
theorem C10_boundaries_from_channel_zero_witness :
    ∃ p0 rest tdc1 pc1 tdc2 pc2, ([0, 1] : List Nat) = p0 :: rest ∧
      np_argwhere pixCoor2212b p0 = some (tdc1, pc1) ∧
      np_argwhere pixCoor2212b witRow.pix2 = some (tdc2, pc2) ∧
      witRow.deltasLen = (calculate_differences_2212
        (extractPix witData tdc1 pc1) (extractPix witData tdc2 pc2)
        (0 :: sentinelRows (witData 0)) 10000).length :=
  C10_boundaries_from_channel_zero pixCoor2212b "a.dat" witData
    [0, 1] 10000 [witRow] rfl witRow (List.mem_singleton.mpr rfl)

/-- When the reference pixel's series has no valid timestamp, every
remaining pair of the file is skipped by the `timestamps_pix1 == 0`
`continue` (or by the pair-order skip), and the accumulator never
grows. -/
lemma pairLoop_all_skipped {file : String} {coor : Nat → Nat → Nat}
    {data : ChannelData} {data1 : List Int} {cycle_ends : List Nat}
    {w p0 : Nat} (hz : countPositive data1 = 0) :
    ∀ pjs acc, (∀ pj ∈ pjs, (np_argwhere coor pj).isSome) →
      pairLoop file coor data data1 cycle_ends w p0 acc pjs = .ok acc := by
  intro pjs
  induction pjs with
  | nil => intro acc _; simp only [pairLoop]
  | cons pj rest ih =>
    intro acc hall
    have hskip : processPair file coor data data1 cycle_ends w p0 pj =
        .ok none := by
      rw [processPair]
      by_cases hle : pj ≤ p0
      · rw [if_pos hle]
      · rw [if_neg hle]
        obtain ⟨rc, hrc⟩ := Option.isSome_iff_exists.mp
          (hall pj (List.mem_cons_self pj rest))
        rw [hrc]
        obtain ⟨tdc2, pc2⟩ := rc
        simp only [if_pos hz]
    simp only [pairLoop, hskip]
    exact ih acc fun q hq => hall q (List.mem_cons_of_mem pj hq)

/-- C5: a file in which the first pixel of the pair list has zero
valid (strictly positive) timestamps contributes no output row for any
pair, and the file loop carries on with the remaining files, their
rows unchanged. -/
theorem C5_zero_valid_reference_skips_file (fw : PyVal)
    (coor : Nat → Nat → Nat) (file : String) (frest : List String)
    (unpacked : String → ChannelData) (p0 : Nat) (rest : List Nat)
    (w tdc1 pc1 : Nat)
    (hfw : pixCoorOf fw = some coor)
    (hn : np_argwhere coor p0 = some (tdc1, pc1))
    (hz : countPositive (extractPix (unpacked file) tdc1 pc1) = 0)
    (hrest : ∀ pj ∈ rest, (np_argwhere coor pj).isSome) :
    processFile coor file (unpacked file) (p0 :: rest) w = .ok [] ∧
    loopFiles fw (file :: frest) unpacked (p0 :: rest) w =
      ((Ev.evUnpack file) :: (loopFiles fw frest unpacked (p0 :: rest) w).1,
       (loopFiles fw frest unpacked (p0 :: rest) w).2) := by
  have hpf : processFile coor file (unpacked file) (p0 :: rest) w =
      .ok [] := by
    rw [processFile.eq_def]
    simp only [hn]
    exact pairLoop_all_skipped hz rest [] hrest
  refine ⟨hpf, ?_⟩
  rw [loopFiles.eq_def]
  simp only [hfw, hpf]
  rcases h2 : loopFiles fw frest unpacked (p0 :: rest) w with ⟨evs, res⟩
  cases res with
  | error e => rfl
  | ok rows => simp [Except.map]

/-- C5 witness: with empty channel data (zero valid timestamps for the
reference pixel) the file yields no rows and the loop moves on. -/
theorem C5_zero_valid_reference_skips_file_witness :
    processFile pixCoor2212b "a.dat" ((fun _ => fun _ => []) "a.dat")
        (0 :: [1]) 10000 = .ok [] ∧
    loopFiles (.pstr "2212b") ("a.dat" :: []) (fun _ => fun _ => [])
        (0 :: [1]) 10000 =
      ((Ev.evUnpack "a.dat") ::
        (loopFiles (.pstr "2212b") [] (fun _ => fun _ => [])
          (0 :: [1]) 10000).1,
       (loopFiles (.pstr "2212b") [] (fun _ => fun _ => [])
          (0 :: [1]) 10000).2) :=
  C5_zero_valid_reference_skips_file (.pstr "2212b") pixCoor2212b
    "a.dat" [] (fun _ => fun _ => []) 0 [1] 10000 0 0
    (by simp [pixCoorOf]) (by decide) (by decide) (by decide)

/-- C8: when the daughterboard or motherboard identifier is not a
string, both entry points raise a `TypeError` at once: the emitted
event trace is empty — no directory change, no listing, no file is
opened — and the outcome is one of the `TypeError` aborts. -/
theorem C8_type_error_before_io (db mb fw : PyVal) (files : List String)
    (unpacked : String → ChannelData) (pixels : List Nat) (w : Nat)
    (artifactExists : Bool) (mask : List Nat)
    (h : db.isStr = false ∨ mb.isStr = false) :
    ((collect_cross_talk db mb fw files unpacked pixels w
        artifactExists).1 = [] ∧
     ((collect_cross_talk db mb fw files unpacked pixels w
        artifactExists).2).isTypeError = true) ∧
    ((calculate_dark_count_rate db mb fw files unpacked mask).1 = [] ∧
     ((calculate_dark_count_rate db mb fw files unpacked
        mask).2).isTypeError = true) := by
  cases db <;> cases mb <;> cases fw <;>
    simp_all [collect_cross_talk, calculate_dark_count_rate,
      PyVal.isStr, CtOutcome.isTypeError, DcrOutcome.isTypeError]

/-- C8 witness: a non-string daughterboard number aborts both entry
points with an empty I/O trace. -/
theorem C8_type_error_before_io_witness :
    ((collect_cross_talk .pother (.pstr "33") (.pstr "2212b") ["a.dat"]
        (fun _ => fun _ => []) [0, 1] 10000 false).1 = [] ∧
     ((collect_cross_talk .pother (.pstr "33") (.pstr "2212b") ["a.dat"]
        (fun _ => fun _ => []) [0, 1] 10000 false).2).isTypeError = true) ∧
    ((calculate_dark_count_rate .pother (.pstr "33") (.pstr "2212b")
        ["a.dat"] (fun _ => fun _ => []) []).1 = [] ∧
     ((calculate_dark_count_rate .pother (.pstr "33") (.pstr "2212b")
        ["a.dat"] (fun _ => fun _ => []) []).2).isTypeError = true) :=
  C8_type_error_before_io .pother (.pstr "33") (.pstr "2212b") ["a.dat"]
    (fun _ => fun _ => []) [0, 1] 10000 false [] (Or.inl rfl)

/-- C2 counterexample: with an unrecognized firmware tag and a data
directory containing no files, `collect_cross_talk` raises no firmware
configuration error at all — the directory is entered and listed
(file I/O occurs first), and the run then dies on `files[0]` with an
`IndexError` while formatting the save message. -/
theorem C2_firmware_check_counterexample :
    collect_cross_talk (.pstr "NL11") (.pstr "33") (.pstr "9999b") []
        (fun _ => fun _ => []) [0, 1] 10000 false =
      ([Ev.evChdir, Ev.evGlob], CtOutcome.indexError) ∧
    (collect_cross_talk (.pstr "NL11") (.pstr "33") (.pstr "9999b") []
        (fun _ => fun _ => []) [0, 1] 10000 false).2 ≠
      CtOutcome.firmwareExit := by
  constructor
  · rfl
  · intro h
    exact CtOutcome.noConfusion h

/-- C2 amended: an unrecognized firmware tag aborts the run on the
first iteration of the file loop — after the directory change and
listing but before any file is unpacked — provided the directory holds
at least one data file; the same holds for `calculate_dark_count_rate`
whenever its tag is a string (its string type check precedes). -/
theorem C2_firmware_exit_first_file (dbs mbs : String) (fw : PyVal)
    (f : String) (frest : List String) (unpacked : String → ChannelData)
    (pixels : List Nat) (w : Nat) (artifactExists : Bool)
    (mask : List Nat) (hfw : pixCoorOf fw = none) :
    collect_cross_talk (.pstr dbs) (.pstr mbs) fw (f :: frest) unpacked
        pixels w artifactExists =
      ([Ev.evChdir, Ev.evGlob], CtOutcome.firmwareExit) ∧
    (fw.isStr = true →
      calculate_dark_count_rate (.pstr dbs) (.pstr mbs) fw (f :: frest)
          unpacked mask =
        ([Ev.evChdir, Ev.evGlob], DcrOutcome.firmwareExit)) := by
  constructor
  · rw [collect_cross_talk]
    simp only [PyVal.isStr, Bool.not_true, ite_false, Bool.false_eq_true,
      not_false_eq_true, ite_true]
    rw [loopFiles.eq_def]
    simp [hfw]
  · intro hstr
    rw [calculate_dark_count_rate]
    simp only [hstr, PyVal.isStr, Bool.not_true, Bool.false_eq_true,
      not_false_eq_true, ite_true, ite_false]
    rw [dcrLoop.eq_def]
    simp [hfw]
    exact hstr

/-- C2 amended witness: tag `"9999b"` with one data file present exits
on the firmware check right after the directory listing. -/
theorem C2_firmware_exit_first_file_witness :
    collect_cross_talk (.pstr "NL11") (.pstr "33") (.pstr "9999b")
        ("a.dat" :: []) (fun _ => fun _ => []) [0, 1] 10000 false =
      ([Ev.evChdir, Ev.evGlob], CtOutcome.firmwareExit) ∧
    ((PyVal.pstr "9999b").isStr = true →
      calculate_dark_count_rate (.pstr "NL11") (.pstr "33")
          (.pstr "9999b") ("a.dat" :: []) (fun _ => fun _ => []) [] =
        ([Ev.evChdir, Ev.evGlob], DcrOutcome.firmwareExit)) :=
  C2_firmware_exit_first_file "NL11" "33" (.pstr "9999b") "a.dat" []
    (fun _ => fun _ => []) [0, 1] 10000 false []
    (by simp [pixCoorOf])

/-- The file loop aborts only through the firmware exit or an
`IndexError`; it never aborts with a completed outcome. -/
lemma loopFiles_error_cases {fw : PyVal} {unpacked : String → ChannelData}
    {pixels : List Nat} {w : Nat} :
    ∀ files evs out,
      loopFiles fw files unpacked pixels w = (evs, .error out) →
      out = .firmwareExit ∨ out = .indexError := by
  intro files
  induction files with
  | nil =>
    intro evs out h
    simp only [loopFiles] at h
    exact Except.noConfusion (congrArg Prod.snd h)
  | cons f rest ih =>
    intro evs out h
    simp only [loopFiles] at h
    rcases hc : pixCoorOf fw with _ | coor <;> simp only [hc] at h
    · exact Or.inl (Except.error.inj (congrArg Prod.snd h)).symm
    · rcases hp : processFile coor f (unpacked f) pixels w with e | rows <;>
        simp only [hp] at h
      · exact Or.inr (Except.error.inj (congrArg Prod.snd h)).symm
      · rcases hr : loopFiles fw rest unpacked pixels w with ⟨evs2, res2⟩
        simp only [hr] at h
        cases res2 with
        | ok rows2 => exact Except.noConfusion (congrArg Prod.snd h)
        | error e =>
          obtain rfl : e = out :=
            Except.error.inj (congrArg Prod.snd h)
          exact ih evs2 e hr

/-- With a recognized firmware tag, the first file of the loop is
always handed to the unpack step. -/
lemma loopFiles_unpack_mem (fw : PyVal) (unpacked : String → ChannelData)
    (pixels : List Nat) (w : Nat) (f : String) (frest : List String)
    (hsome : (pixCoorOf fw).isSome = true) :
    Ev.evUnpack f ∈ (loopFiles fw (f :: frest) unpacked pixels w).1 := by
  obtain ⟨coor, hc⟩ := Option.isSome_iff_exists.mp hsome
  simp only [loopFiles, hc]
  rcases hp : processFile coor f (unpacked f) pixels w with e | rows <;>
    simp [hp]

/-- C1 amended: `collect_cross_talk` has no rewrite flag and no
caching: its behaviour is identical whether or not a cached output
artifact exists, the unpack step runs on the first data file on every
run with a recognized tag, and every completed run writes (overwrites)
the output artifact. -/
theorem C1_no_cache_always_recomputes (db mb fw : PyVal)
    (files : List String) (unpacked : String → ChannelData)
    (pixels : List Nat) (w : Nat) :
    collect_cross_talk db mb fw files unpacked pixels w true =
      collect_cross_talk db mb fw files unpacked pixels w false ∧
    (∀ f frest, files = f :: frest → db.isStr = true → mb.isStr = true →
      (pixCoorOf fw).isSome = true →
      Ev.evUnpack f ∈
        (collect_cross_talk db mb fw files unpacked pixels w true).1) ∧
    (∀ rows,
      (collect_cross_talk db mb fw files unpacked pixels w true).2 =
        .done rows →
      Ev.evWriteCsv ∈
        (collect_cross_talk db mb fw files unpacked pixels w true).1) := by
  refine ⟨?_, ?_, ?_⟩
  · simp only [collect_cross_talk, ite_self]
  · rintro f frest rfl hdb hmb hsome
    have hmem := loopFiles_unpack_mem fw unpacked pixels w f frest hsome
    rcases hl : loopFiles fw (f :: frest) unpacked pixels w with ⟨evs, res⟩
    rw [hl] at hmem
    cases res with
    | error out => simp [collect_cross_talk, hdb, hmb, hl]; simpa using hmem
    | ok rows => simp [collect_cross_talk, hdb, hmb, hl]; simpa using hmem
  · intro rows hdone
    by_cases hdb : db.isStr = true
    · by_cases hmb : mb.isStr = true
      · rcases hl : loopFiles fw files unpacked pixels w with ⟨evs, res⟩
        cases res with
        | error out =>
          rcases loopFiles_error_cases files evs out hl with rfl | rfl <;>
            simp [collect_cross_talk, hdb, hmb, hl] at hdone
        | ok rows2 =>
          cases files with
          | nil => simp [collect_cross_talk, hdb, hmb, hl] at hdone
          | cons f frest => simp [collect_cross_talk, hdb, hmb, hl]
      · simp [collect_cross_talk, hdb, hmb] at hdone
    · simp [collect_cross_talk, hdb] at hdone

/-- C1 counterexample: a run with an existing cached artifact for the
same file set still invokes the unpack step on the data file and still
writes the artifact — there is no rewrite flag and the existence check
has two identical branches, so nothing is ever skipped. -/
theorem C1_cache_counterexample :
    collect_cross_talk (.pstr "NL11") (.pstr "33") (.pstr "2212b")
        ["a.dat"] (fun _ => fun _ => []) [0, 1] 10000 true =
      ([Ev.evChdir, Ev.evGlob, Ev.evUnpack "a.dat", Ev.evWriteCsv],
       CtOutcome.done []) := rfl

/-- C1 witness: the concrete cached-artifact run both unpacks the file
and writes the output artifact. -/
theorem C1_no_cache_always_recomputes_witness :
    Ev.evUnpack "a.dat" ∈ (collect_cross_talk (.pstr "NL11") (.pstr "33")
      (.pstr "2212b") ["a.dat"] (fun _ => fun _ => []) [0, 1]
      10000 true).1 ∧
    Ev.evWriteCsv ∈ (collect_cross_talk (.pstr "NL11") (.pstr "33")
      (.pstr "2212b") ["a.dat"] (fun _ => fun _ => []) [0, 1]
      10000 true).1 :=
  ⟨(C1_no_cache_always_recomputes (.pstr "NL11") (.pstr "33")
      (.pstr "2212b") ["a.dat"] (fun _ => fun _ => []) [0, 1]
      10000).2.1 "a.dat" [] rfl rfl rfl rfl,
   (C1_no_cache_always_recomputes (.pstr "NL11") (.pstr "33")
      (.pstr "2212b") ["a.dat"] (fun _ => fun _ => []) [0, 1]
      10000).2.2 [] rfl⟩
